import Mathlib

/-!
Verification development for the Surge Detector Dashboard ingestion-to-ranking
pipeline. The definitions below are shallow embeddings of the TypeScript
source: JS numbers become rationals, timestamps become integers, JS Sets and
Maps become lists, and the stable Array.prototype.sort becomes List.mergeSort.
Ambient state read inside the source functions (Date.now) is passed as an
explicit parameter. Fields and functions keep their source names where Lean
permits.
-/

set_option maxRecDepth 4096

-- ════════════════════════════════════════════════════════════════════════
-- Shared enumerations (src/types/unified.ts, src/types/exchanges.ts)
-- ════════════════════════════════════════════════════════════════════════

/-- Exchange identifiers from src/types/unified.ts. -/
inductive Exchange where
  | binance
  | bybit
  | okx
  | hyperliquid
  | kraken
  | gateio
deriving DecidableEq, Repr

instance : Inhabited Exchange := ⟨Exchange.binance⟩

/-- Connection states from src/types/exchanges.ts. -/
inductive ConnectionState where
  | disconnected
  | connecting
  | connected
  | reconnecting
  | error
deriving DecidableEq, Repr

-- ════════════════════════════════════════════════════════════════════════
-- Unified market record (src/types/unified.ts, fields used by the
-- operations verified here; the remaining source fields are not read by
-- any embedded function and are omitted)
-- ════════════════════════════════════════════════════════════════════════

structure UnifiedMarket where
  id : String
  exchange : Exchange
  symbol : String
  lastPrice : ℚ
  bestBid : ℚ
  bestAsk : ℚ
  spreadPercent : ℚ
  volume24hUsd : ℚ
  openInterestUsd : Option ℚ
  fundingRateAnnualized : Option ℚ
  priceChangePercent24h : ℚ
deriving DecidableEq, Repr

instance : Inhabited UnifiedMarket :=
  ⟨{ id := "", exchange := default, symbol := "", lastPrice := 0, bestBid := 0,
     bestAsk := 0, spreadPercent := 0, volume24hUsd := 0, openInterestUsd := none,
     fundingRateAnnualized := none, priceChangePercent24h := 0 }⟩

-- ════════════════════════════════════════════════════════════════════════
-- Rolling window ring buffer (src/compute/metrics-manager.ts, class
-- RollingWindow). The buckets array of length bucketCount with null
-- entries becomes a list of optional buckets.
-- ════════════════════════════════════════════════════════════════════════

structure Bucket (T : Type) where
  timestamp : Int
  value : T
deriving DecidableEq, Repr

structure RollingWindow (T : Type) where
  buckets : List (Option (Bucket T))
  bucketSizeMs : Int
  bucketCount : Nat
  currentIndex : Nat
  lastBucketTime : Int
deriving Repr

/-- Loop body of RollingWindow.aggregate: scan the buckets array in index
order; the source RETURNS from inside the loop at the first retained bucket
whose timestamp is at or after the cutoff, merging it into the fresh
default value. -/
def aggregateLoop {T : Type} (dflt : T) (aggregator : T → T → T) (cutoff : Int) :
    List (Option (Bucket T)) → T
  | [] => dflt
  | none :: rest => aggregateLoop dflt aggregator cutoff rest
  | some b :: rest =>
      if cutoff ≤ b.timestamp then aggregator dflt b.value
      else aggregateLoop dflt aggregator cutoff rest

/-- RollingWindow.aggregate(bucketCount). The constructor-supplied family
functions defaultValue and aggregator and the ambient Date.now() are
passed explicitly. -/
def RollingWindow.aggregate {T : Type} (w : RollingWindow T) (dflt : T)
    (aggregator : T → T → T) (now : Int) (n : Nat) : T :=
  aggregateLoop dflt aggregator (now - n * w.bucketSizeMs) w.buckets

/-- RollingWindow.getRange(startTime, endTime): collect retained buckets
inside the closed interval in array order, then sort ascending by
timestamp (the source uses the stable Array.prototype.sort with
comparator a.timestamp - b.timestamp). -/
def RollingWindow.getRange {T : Type} (w : RollingWindow T)
    (startTime endTime : Int) : List (Bucket T) :=
  ((w.buckets.filterMap id).filter
      (fun b => decide (startTime ≤ b.timestamp) && decide (b.timestamp ≤ endTime))).mergeSort
    (fun a b => decide (a.timestamp ≤ b.timestamp))

/-- RollingWindow.clear(): reset to the empty ring. -/
def RollingWindow.clear {T : Type} (w : RollingWindow T) (now : Int) :
    RollingWindow T :=
  { w with
    buckets := List.replicate w.bucketCount none
    currentIndex := 0
    lastBucketTime := now }

-- ════════════════════════════════════════════════════════════════════════
-- Specialized window families (src/compute/metrics-manager.ts)
-- ════════════════════════════════════════════════════════════════════════

structure PriceBucket where
  open' : ℚ
  high : ℚ
  low : ℚ
  close : ℚ
  volume : ℚ
deriving DecidableEq, Repr

structure VolumeBucket where
  buyVolume : ℚ
  sellVolume : ℚ
  totalVolume : ℚ
  tradeCount : ℚ
deriving DecidableEq, Repr

/-- Identity value of the volume window family (createVolumeWindow). -/
def volumeDefault : VolumeBucket :=
  { buyVolume := 0, sellVolume := 0, totalVolume := 0, tradeCount := 0 }

/-- Component-wise merge of the volume window family (createVolumeWindow). -/
def volumeMerge (a b : VolumeBucket) : VolumeBucket :=
  { buyVolume := a.buyVolume + b.buyVolume
    sellVolume := a.sellVolume + b.sellVolume
    totalVolume := a.totalVolume + b.totalVolume
    tradeCount := a.tradeCount + b.tradeCount }

/-- What claim C1 (and spec section 4.3) say aggregate(n) computes: the fold
of the family merge, from the family identity, over ALL retained buckets
whose timestamps lie within the last n bucket widths. This definition
follows the claim wording and is compared against the source aggregate. -/
def aggregateClaimed {T : Type} (w : RollingWindow T) (dflt : T)
    (aggregator : T → T → T) (now : Int) (n : Nat) : T :=
  ((w.buckets.filterMap id).filter
      (fun b => decide (now - n * w.bucketSizeMs ≤ b.timestamp))).foldl
    (fun acc b => aggregator acc b.value) dflt

-- ════════════════════════════════════════════════════════════════════════
-- Derived metrics calculator (src/unnamed/part_003). Each function reads
-- its window through getRange with Date.now() passed as the explicit now
-- parameter.
-- ════════════════════════════════════════════════════════════════════════

/-- calculateCVD(window) (src/unnamed/part_003 lines 194-203): the range
query over the window full retention horizon bucketSizeMs * bucketCount
ending at now, then a reduce summing buyVolume minus sellVolume. -/
def calculateCVD (w : RollingWindow VolumeBucket) (now : Int) : ℚ :=
  (w.getRange (now - w.bucketSizeMs * (w.bucketCount : Int)) now).foldl
    (fun sum b => sum + (b.value.buyVolume - b.value.sellVolume)) 0

/-- calculatePriceVelocity(window) (src/unnamed/part_003 lines 163-179):
range query over the trailing 60s; 0 with fewer than two buckets; first
and last closes and the timestamp difference in minutes; 0 when the first
close or the time difference is zero; else ((last - first) / first /
timeDiff) * 100. The source buckets[0] and buckets[length - 1] reads are
realized as head? and getLast?; the none fallback is unreachable under
the two-bucket guard. -/
def calculatePriceVelocity (w : RollingWindow PriceBucket) (now : Int) : ℚ :=
  let buckets := w.getRange (now - 60000) now
  if buckets.length < 2 then 0
  else
    match buckets.head?, buckets.getLast? with
    | some first, some last =>
        let timeDiff := ((last.timestamp - first.timestamp : Int) : ℚ) / 60000
        if first.value.close = 0 ∨ timeDiff = 0 then 0
        else (last.value.close - first.value.close) / first.value.close /
          timeDiff * 100
    | _, _ => 0

/-- calculatePriceAcceleration(window) (src/unnamed/part_003 lines
184-189): recent and older are both computed by the same velocity call
over the same window (the source comment reads: would need separate
calculation), and their difference is returned. -/
def calculatePriceAcceleration (w : RollingWindow PriceBucket) (now : Int) : ℚ :=
  let recent := calculatePriceVelocity w now
  let older := calculatePriceVelocity w now
  recent - older

-- ════════════════════════════════════════════════════════════════════════
-- Cross-exchange aggregation (src/compute/metrics-manager.ts)
-- ════════════════════════════════════════════════════════════════════════

structure ArbitrageOpportunity where
  opExists : Bool
  buyExchange : Exchange
  sellExchange : Exchange
  profitPercent : ℚ
  buyPrice : ℚ
  sellPrice : ℚ
deriving DecidableEq, Repr

structure AggregatedMarket where
  symbol : String
  exchanges : List Exchange
  markets : List UnifiedMarket
  bestBid : ℚ
  bestBidExchange : Exchange
  bestAsk : ℚ
  bestAskExchange : Exchange
  averagePrice : ℚ
  weightedAveragePrice : ℚ
  priceSpread : ℚ
  totalVolume24h : ℚ
  totalOpenInterest : ℚ
  averageFundingRate : ℚ
  fundingSpread : ℚ
  arbitrageOpportunity : ArbitrageOpportunity
  updatedAt : Int
deriving DecidableEq, Repr

/-- calculateArbitrage: an opportunity exists exactly when the best bid
exceeds the best ask and the two venues differ. -/
def calculateArbitrage (bestBid : ℚ) (bestBidExchange : Exchange)
    (bestAsk : ℚ) (bestAskExchange : Exchange) : ArbitrageOpportunity :=
  if bestAsk < bestBid ∧ bestBidExchange ≠ bestAskExchange then
    { opExists := true
      buyExchange := bestAskExchange
      sellExchange := bestBidExchange
      profitPercent := (bestBid - bestAsk) / bestAsk * 100
      buyPrice := bestAsk
      sellPrice := bestBid }
  else
    { opExists := false
      buyExchange := bestBidExchange
      sellExchange := bestAskExchange
      profitPercent := 0
      buyPrice := bestAsk
      sellPrice := bestBid }

/-- Best-bid loop of aggregateSymbolMarkets: running maximum with strict
improvement, so ties keep the first seen venue; the accumulator starts at
bid 0 with the first market venue. -/
def bestBidFold (markets : List UnifiedMarket) (init : ℚ × Exchange) :
    ℚ × Exchange :=
  markets.foldl
    (fun acc m => if acc.1 < m.bestBid then (m.bestBid, m.exchange) else acc) init

/-- Best-ask loop of aggregateSymbolMarkets: running minimum with strict
improvement. The JS accumulator starts at Infinity; the sentinel is
modelled as none, and every rational market ask is below it, matching the
source comparison against Infinity. -/
def bestAskFold (markets : List UnifiedMarket) (init : Option ℚ × Exchange) :
    Option ℚ × Exchange :=
  markets.foldl
    (fun acc m =>
      match acc.1 with
      | none => (some m.bestAsk, m.exchange)
      | some a => if m.bestAsk < a then (some m.bestAsk, m.exchange) else acc)
    init

/-- Maximum of a list of rationals, as Math.max over a spread nonempty
array (the source only applies it to the nonempty prices list). -/
def listMax (l : List ℚ) : ℚ := l.foldl max (l.headD 0)

/-- Minimum of a list of rationals, as Math.min over a spread nonempty
array. -/
def listMin (l : List ℚ) : ℚ := l.foldl min (l.headD 0)

/-- aggregateSymbolMarkets(symbol, markets). Ambient Date.now() is the now
parameter. markets[0].exchange of the source (only ever reached with at
least two markets, guarded in aggregateMarketsBySymbol) is headD with the
default venue; the Infinity ask sentinel can survive the fold only on an
empty market list and is defaulted to 0 there. -/
def aggregateSymbolMarkets (symbol : String) (markets : List UnifiedMarket)
    (now : Int) : AggregatedMarket :=
  let firstExchange := (markets.headD default).exchange
  let bid := bestBidFold markets (0, firstExchange)
  let ask := bestAskFold markets (none, firstExchange)
  let bestBid := bid.1
  let bestBidExchange := bid.2
  let bestAsk := (ask.1).getD 0
  let bestAskExchange := ask.2
  let prices := markets.map (fun m => m.lastPrice)
  let averagePrice := prices.sum / prices.length
  let totalVolume := (markets.map (fun m => m.volume24hUsd)).sum
  let weightedAveragePrice :=
    if 0 < totalVolume then
      (markets.map (fun m => m.lastPrice * m.volume24hUsd)).sum / totalVolume
    else averagePrice
  let priceSpread := listMax prices - listMin prices
  let totalVolume24h := (markets.map (fun m => m.volume24hUsd)).sum
  let totalOpenInterest :=
    (markets.map (fun m => (m.openInterestUsd).getD 0)).sum
  let fundingRates := markets.filterMap (fun m => m.fundingRateAnnualized)
  let averageFundingRate :=
    if fundingRates.isEmpty then 0 else fundingRates.sum / fundingRates.length
  let fundingSpread :=
    if fundingRates.isEmpty then 0 else listMax fundingRates - listMin fundingRates
  { symbol := symbol
    exchanges := markets.map (fun m => m.exchange)
    markets := markets
    bestBid := bestBid
    bestBidExchange := bestBidExchange
    bestAsk := bestAsk
    bestAskExchange := bestAskExchange
    averagePrice := averagePrice
    weightedAveragePrice := weightedAveragePrice
    priceSpread := priceSpread
    totalVolume24h := totalVolume24h
    totalOpenInterest := totalOpenInterest
    averageFundingRate := averageFundingRate
    fundingSpread := fundingSpread
    arbitrageOpportunity :=
      calculateArbitrage bestBid bestBidExchange bestAsk bestAskExchange
    updatedAt := now }

-- ════════════════════════════════════════════════════════════════════════
-- Bybit session (src/connectors/bybit/websocket.ts, class
-- BybitWebSocketManager). The tracked subscription Set becomes a
-- duplicate-free list; the send side effect of a method is returned as
-- the list of subscribe frames it emits, each frame being its args list.
-- ════════════════════════════════════════════════════════════════════════

structure BybitWebSocketManager where
  wsOpen : Bool
  state : ConnectionState
  reconnectAttempts : Nat
  maxReconnectAttempts : Nat
  reconnectDelay : Nat
  maxReconnectDelay : Nat
  subscriptions : List String
  isManualClose : Bool
deriving DecidableEq, Repr

/-- Set.add over the tracked topics: append each topic not yet present. -/
def addTopics (subs : List String) (topics : List String) : List String :=
  topics.foldl (fun s t => if s.contains t then s else s ++ [t]) subs

/-- subscribe(topics): with the socket closed, the topics are only queued
into the tracked set; with it open, the topics already tracked are
filtered away, and a single subscribe frame is sent exactly when some
topic is new. Returns the updated tracked set and the frames sent. -/
def bybitSubscribe (subs : List String) (wsOpen : Bool) (topics : List String) :
    List String × List (List String) :=
  if wsOpen = false then (addTopics subs topics, [])
  else
    let newTopics := topics.filter (fun t => !subs.contains t)
    if newTopics.isEmpty then (subs, [])
    else (addTopics subs newTopics, [newTopics])

/-- resubscribeAll(), as invoked from the open handler after a reconnect:
with a nonempty tracked set it calls subscribe on the whole tracked set
over the now-open socket. Returns the subscribe frames sent. -/
def resubscribeAll (subs : List String) : List (List String) :=
  if subs.isEmpty then [] else (bybitSubscribe subs true subs).2

/-- Open-handler state change of connect(): connected, attempt counter and
delay reset (the resubscribeAll frames are modelled separately). -/
def bybitOnOpen (m : BybitWebSocketManager) : BybitWebSocketManager :=
  { m with
    wsOpen := true
    state := ConnectionState.connected
    reconnectAttempts := 0
    reconnectDelay := 1000 }

/-- scheduleReconnect(): at the attempt cap the state becomes the terminal
error and nothing is scheduled; otherwise the counter is incremented and
a retry is scheduled after min(reconnectDelay * 2 ^ (attempts - 1),
maxReconnectDelay) ms. Returns the new state and the scheduled delay. -/
def scheduleReconnect (m : BybitWebSocketManager) :
    BybitWebSocketManager × Option Nat :=
  if m.maxReconnectAttempts ≤ m.reconnectAttempts then
    ({ m with state := ConnectionState.error }, none)
  else
    let attempts := m.reconnectAttempts + 1
    let delay := min (m.reconnectDelay * 2 ^ (attempts - 1)) m.maxReconnectDelay
    ({ m with reconnectAttempts := attempts, state := ConnectionState.reconnecting },
      some delay)

-- ════════════════════════════════════════════════════════════════════════
-- Binance session (src/connectors/binance/websocket.ts, class
-- BinanceWebSocketManager): stream splitting across physical connections
-- and the aggregate connection state.
-- ════════════════════════════════════════════════════════════════════════

structure ConnectionInfo where
  wsOpen : Bool
  streams : List String
  isConnected : Bool
  reconnectAttempts : Nat
deriving DecidableEq, Repr

def STREAMS_PER_CONNECTION : Nat := 50

/-- updateOverallState(): the aggregate state recomputed from the physical
connections. The source keeps the state connected even when only some of
the connections are open. -/
def updateOverallState (connections : List ConnectionInfo) : ConnectionState :=
  let connectedCount := (connections.filter (fun c => c.isConnected)).length
  let totalConnections := connections.length
  if totalConnections = 0 then ConnectionState.disconnected
  else if connectedCount = totalConnections then ConnectionState.connected
  else if 0 < connectedCount then ConnectionState.connected
  else ConnectionState.disconnected

/-- Chunking loop of reorganizeConnections: repeated slice(i, i + c) in
steps of c over the stream list, realized as take c and drop c. -/
def chunkBy {α : Type} (c : Nat) (l : List α) : List (List α) :=
  if h : c = 0 ∨ l.isEmpty then []
  else l.take c :: chunkBy c (l.drop c)
termination_by l.length
decreasing_by
  push_neg at h
  have hl : 0 < l.length := by
    cases l with
    | nil => simp at h
    | cons a rest => simp
  have hc : 0 < c := Nat.pos_of_ne_zero h.1
  simp only [List.length_drop]
  omega

/-- reorganizeConnections(): split the tracked streams into chunks of at
most STREAMS_PER_CONNECTION and build one fresh physical connection per
chunk (sockets closed, counters reset). -/
def reorganizeConnections (subscribedStreams : List String) : List ConnectionInfo :=
  (chunkBy STREAMS_PER_CONNECTION subscribedStreams).map
    (fun streams =>
      { wsOpen := false, streams := streams, isConnected := false,
        reconnectAttempts := 0 })

/-- connectConnection(index), reduced to its wire effect for one
connection group: the combined-stream URL embeds every stream of the
group, joined with / after ?streams=. -/
def binanceConnectionUrl (baseUrl : String) (conn : ConnectionInfo) : String :=
  baseUrl ++ "?streams=" ++ String.intercalate "/" conn.streams

-- ════════════════════════════════════════════════════════════════════════
-- Enhanced leaderboards (src/store/enhanced-leaderboards.ts)
-- ════════════════════════════════════════════════════════════════════════

structure EntryMetadata where
  lastPrice : ℚ
  volume24h : ℚ
deriving DecidableEq, Repr

structure LeaderboardEntry where
  id : String
  exchange : Exchange
  symbol : String
  value : ℚ
  rank : Nat
  metadata : EntryMetadata
deriving DecidableEq, Repr

/-- entries.forEach((entry, index) => entry.rank = index + 1): assign the
one-based position as the rank, walking the list with its index. -/
def assignRanks (i : Nat) : List LeaderboardEntry → List LeaderboardEntry
  | [] => []
  | e :: rest => { e with rank := i + 1 } :: assignRanks (i + 1) rest

/-- createEntries(markets, getValue, sortFn): map each market to an entry
with rank 0, sort with the stable Array.prototype.sort under the given
comparator, then assign ranks by position. The JS comparator
(a, b) => b.value - a.value corresponds to the Bool order passed here. -/
def createEntries (markets : List UnifiedMarket) (getValue : UnifiedMarket → ℚ)
    (sortLe : LeaderboardEntry → LeaderboardEntry → Bool) : List LeaderboardEntry :=
  assignRanks 0
    ((markets.map
        (fun market =>
          ({ id := market.id
             exchange := market.exchange
             symbol := market.symbol
             value := getValue market
             rank := 0
             metadata :=
               { lastPrice := market.lastPrice
                 volume24h := market.volume24hUsd } } : LeaderboardEntry))).mergeSort
      sortLe)

/-- updateGainers1h(markets): keep the markets with positive price change
percent, value them by that percent, and sort descending (comparator
(a, b) => b.value - a.value). The JS guard (m.priceChangePercent24h || 0)
is the identity on rationals since only the zero value is falsy. -/
def updateGainers1h (markets : List UnifiedMarket) : List LeaderboardEntry :=
  createEntries (markets.filter (fun m => decide (0 < m.priceChangePercent24h)))
    (fun m => m.priceChangePercent24h)
    (fun a b => decide (b.value ≤ a.value))

/-- EnhancedLeaderboardStore.get(name, limit): the stored entry list for
the name, clipped with slice(0, limit). -/
def leaderboardGet (entries : List LeaderboardEntry) (limit : Nat) :
    List LeaderboardEntry :=
  entries.take limit

-- ════════════════════════════════════════════════════════════════════════
-- Broadcast throttler (src/api/websocket.ts): the leaderboard side of the
-- broadcast queue. The Map from leaderboard name to pending entries
-- becomes an association list with Map.set replace-or-append semantics.
-- ════════════════════════════════════════════════════════════════════════

/-- broadcastQueue.leaderboards.set(name, value). -/
def queueSet (q : List (String × List LeaderboardEntry)) (name : String)
    (v : List LeaderboardEntry) : List (String × List LeaderboardEntry) :=
  if q.any (fun p => p.1 == name) then
    q.map (fun p => if p.1 == name then (name, v) else p)
  else q ++ [(name, v)]

/-- broadcastLeaderboard(name, entries): only the first 20 entries are
queued, to reduce payload; the rest are dropped before queuing. -/
def broadcastLeaderboard (q : List (String × List LeaderboardEntry))
    (name : String) (entries : List LeaderboardEntry) :
    List (String × List LeaderboardEntry) :=
  queueSet q name (entries.take 20)

/-- Leaderboard side of flushBroadcastQueue(): one message per queued
name, on channel leaderboard:name, carrying the queued entries verbatim
as its data. -/
def flushLeaderboardMessages (q : List (String × List LeaderboardEntry)) :
    List (String × List LeaderboardEntry) :=
  q.map (fun p => ("leaderboard:" ++ p.1, p.2))

-- ════════════════════════════════════════════════════════════════════════
-- Shared helper lemmas
-- ════════════════════════════════════════════════════════════════════════

theorem chunkBy_flatten {α : Type} (c : Nat) (hc : 0 < c) (l : List α) :
    (chunkBy c l).flatten = l := by
  induction l using chunkBy.induct c with
  | case1 l h =>
    rcases h with h | h
    · omega
    · rw [List.isEmpty_iff] at h
      rw [chunkBy]
      simp [h]
  | case2 l h ih =>
    rw [chunkBy, dif_neg h, List.flatten_cons, ih]
    exact List.take_append_drop c l

theorem chunkBy_length {α : Type} (c : Nat) (hc : 0 < c) (l : List α) :
    (chunkBy c l).length = (l.length + c - 1) / c := by
  induction l using chunkBy.induct c with
  | case1 l h =>
    rcases h with h | h
    · omega
    · rw [List.isEmpty_iff] at h
      subst h
      rw [chunkBy]
      simp
      rw [Nat.div_eq_of_lt (by omega)]
  | case2 l h ih =>
    have h' := h
    push_neg at h'
    have hl : 0 < l.length := by
      cases l with
      | nil => simp at h'
      | cons a rest => simp
    rw [chunkBy, dif_neg h, List.length_cons, ih]
    simp only [List.length_drop]
    rcases le_or_lt l.length c with hle | hlt
    · have e1 : l.length - c = 0 := by omega
      have e2 : l.length + c - 1 = (l.length - 1) + c := by omega
      rw [e1, e2, Nat.add_div_right _ hc]
      have h3 : (0 + c - 1) / c = 0 := Nat.div_eq_of_lt (by omega)
      have h4 : (l.length - 1) / c = 0 := Nat.div_eq_of_lt (by omega)
      omega
    · have e1 : l.length - c + c - 1 = (l.length - c - 1) + c := by omega
      have e2 : l.length + c - 1 = (l.length - c - 1) + c + c := by omega
      rw [e1, e2, Nat.add_div_right _ hc, Nat.add_div_right _ hc,
        Nat.add_div_right _ hc]

theorem chunkBy_mem_length {α : Type} (c : Nat) (l : List α) :
    ∀ ch ∈ chunkBy c l, ch.length ≤ c := by
  induction l using chunkBy.induct c with
  | case1 l h =>
    rw [chunkBy, dif_pos h]
    simp
  | case2 l h ih =>
    rw [chunkBy, dif_neg h]
    intro ch hch
    rcases List.mem_cons.mp hch with rfl | hmem
    · simpa using List.length_take_le c l
    · exact ih ch hmem

theorem chunkBy_pairwise_disjoint {α : Type} (c : Nat) (hc : 0 < c)
    (l : List α) (hnd : l.Nodup) :
    (chunkBy c l).Pairwise (fun a b => a.Disjoint b) := by
  have hflat : ((chunkBy c l).flatten).Nodup := by
    rw [chunkBy_flatten c hc l]
    exact hnd
  exact (List.nodup_flatten.mp hflat).2

theorem foldl_add_eq_sum {α : Type} (f : α → ℚ) (l : List α) (a : ℚ) :
    l.foldl (fun acc b => acc + f b) a = a + (l.map f).sum := by
  induction l generalizing a with
  | nil => simp
  | cons x xs ih =>
    simp only [List.foldl_cons, List.map_cons, List.sum_cons, ih]
    ring

theorem assignRanks_map_rank (i : Nat) (l : List LeaderboardEntry) :
    (assignRanks i l).map (fun e => e.rank) = List.range' (i + 1) l.length := by
  induction l generalizing i with
  | nil => simp [assignRanks]
  | cons e rest ih =>
    simp only [assignRanks, List.map_cons, List.length_cons, List.range'_succ, ih]

theorem assignRanks_map_value (i : Nat) (l : List LeaderboardEntry) :
    (assignRanks i l).map (fun e => e.value) = l.map (fun e => e.value) := by
  induction l generalizing i with
  | nil => simp [assignRanks]
  | cons e rest ih =>
    simp only [assignRanks, List.map_cons, ih]

theorem assignRanks_length (i : Nat) (l : List LeaderboardEntry) :
    (assignRanks i l).length = l.length := by
  have := congrArg List.length (assignRanks_map_value i l)
  simpa using this

theorem filter_not_contains_self (subs : List String) :
    subs.filter (fun t => !subs.contains t) = [] := by
  rw [List.filter_eq_nil_iff]
  intro t ht
  simp only [Bool.not_eq_true', Bool.not_eq_false]
  exact List.elem_eq_true_of_mem ht

theorem createEntries_desc_sorted (markets : List UnifiedMarket)
    (getValue : UnifiedMarket → ℚ) :
    List.Sorted (fun a b : ℚ => b ≤ a)
      ((createEntries markets getValue
          (fun a b => decide (b.value ≤ a.value))).map (fun e => e.value)) := by
  unfold createEntries
  rw [assignRanks_map_value]
  have hsorted :
      (List.mergeSort
          (markets.map
            (fun market =>
              ({ id := market.id
                 exchange := market.exchange
                 symbol := market.symbol
                 value := getValue market
                 rank := 0
                 metadata :=
                   { lastPrice := market.lastPrice
                     volume24h := market.volume24hUsd } } : LeaderboardEntry)))
          (fun a b => decide (b.value ≤ a.value))).Pairwise
        (fun a b => decide (b.value ≤ a.value) = true) :=
    List.sorted_mergeSort
      (fun a b c hab hbc => by
        simp only [decide_eq_true_eq] at *
        exact le_trans hbc hab)
      (fun a b => by
        simp only [Bool.or_eq_true, decide_eq_true_eq]
        exact le_total b.value a.value)
      _
  rw [List.Sorted, List.pairwise_map]
  exact hsorted.imp (fun h => of_decide_eq_true h)

theorem updateOverallState_cases (connections : List ConnectionInfo) :
    (updateOverallState connections = ConnectionState.connected ↔
      ∃ c ∈ connections, c.isConnected = true) ∧
    (updateOverallState connections = ConnectionState.disconnected ↔
      ∀ c ∈ connections, c.isConnected = false) := by
  have hpos : 0 < (connections.filter (fun c => c.isConnected)).length ↔
      ∃ c ∈ connections, c.isConnected = true := by
    rw [List.length_pos]
    constructor
    · intro hne
      obtain ⟨c, hc⟩ := List.exists_mem_of_ne_nil _ hne
      obtain ⟨hmem, hp⟩ := List.mem_filter.mp hc
      exact ⟨c, hmem, hp⟩
    · rintro ⟨c, hmem, hp⟩
      exact List.ne_nil_of_mem (List.mem_filter.mpr ⟨hmem, hp⟩)
  have hzero : (connections.filter (fun c => c.isConnected)).length = 0 ↔
      ∀ c ∈ connections, c.isConnected = false := by
    rw [List.length_eq_zero, List.filter_eq_nil_iff]
    constructor
    · intro hz c hmem
      have hc := hz c hmem
      simpa using hc
    · intro hz c hmem
      simp [hz c hmem]
  have hle := List.length_filter_le (fun c => c.isConnected) connections
  simp only [updateOverallState]
  split_ifs with h1 h2 h3
  · rw [List.length_eq_zero] at h1
    subst h1
    simp
  · have hex : ∃ c ∈ connections, c.isConnected = true := hpos.mp (by omega)
    have hne : ¬ ∀ c ∈ connections, c.isConnected = false := by
      intro hall
      have hz := hzero.mpr hall
      omega
    exact ⟨⟨fun _ => hex, fun _ => rfl⟩,
      ⟨fun hcontra => hcontra.elim,
        fun hall => (hne hall).elim⟩⟩
  · have hex : ∃ c ∈ connections, c.isConnected = true := hpos.mp h3
    have hne : ¬ ∀ c ∈ connections, c.isConnected = false := by
      intro hall
      have hz := hzero.mpr hall
      omega
    exact ⟨⟨fun _ => hex, fun _ => rfl⟩,
      ⟨fun hcontra => hcontra.elim,
        fun hall => (hne hall).elim⟩⟩
  · have hk : (connections.filter (fun c => c.isConnected)).length = 0 := by
      omega
    exact ⟨⟨fun hcontra => hcontra.elim,
        fun hex => absurd (hpos.mpr hex) (by omega)⟩,
      ⟨fun _ => hzero.mp hk, fun _ => rfl⟩⟩

theorem queueSet_mem (q : List (String × List LeaderboardEntry)) (name : String)
    (v : List LeaderboardEntry) : (name, v) ∈ queueSet q name v := by
  unfold queueSet
  split_ifs with h
  · obtain ⟨p, hp, hpe⟩ := List.any_eq_true.mp h
    refine List.mem_map.mpr ⟨p, hp, ?_⟩
    rw [if_pos hpe]
  · simp

-- ════════════════════════════════════════════════════════════════════════
-- Claim theorems
-- ════════════════════════════════════════════════════════════════════════

/-- Claim C2: after an unplanned close and reconnect, the Bybit session is
supposed to replay its tracked subscriptions, but resubscribeAll feeds the
tracked set back into subscribe, whose new-topic filter removes every
already-tracked topic, so NO subscribe frame is ever sent: the replay
claim fails on the code for the explicit-control-frame wire shape. -/
theorem claim_C2_resubscribe_sends_nothing (subs : List String) :
    resubscribeAll subs = [] := by
  by_cases h : subs.isEmpty
  · simp [resubscribeAll, h]
  · simp [resubscribeAll, bybitSubscribe, h, filter_not_contains_self subs]

/-- Stream-split session state with one open and one closed physical
connection, reachable by a 2-group split where one group has connected
and the other has not (or has closed). -/
def splitConnsExample : List ConnectionInfo :=
  [{ wsOpen := true, streams := ["btcusdt@ticker"], isConnected := true,
     reconnectAttempts := 0 },
   { wsOpen := false, streams := ["ethusdt@ticker"], isConnected := false,
     reconnectAttempts := 0 }]

/-- Claim C3, counterexample: with two physical connections of which only
the first is open, the aggregate state is connected although not all
connections are open, refuting connected-only-when-all-open. -/
theorem claim_C3_counterexample :
    updateOverallState splitConnsExample = ConnectionState.connected
    ∧ ¬ ∀ c ∈ splitConnsExample, c.isConnected = true := by
  decide

/-- Claim C3, amended: the aggregate state is connected exactly when at
least one physical connection is open, and disconnected exactly when no
physical connection is open (in particular when there are none). -/
theorem claim_C3_amended (connections : List ConnectionInfo) :
    (updateOverallState connections = ConnectionState.connected ↔
      ∃ c ∈ connections, c.isConnected = true)
    ∧ (updateOverallState connections = ConnectionState.disconnected ↔
      ∀ c ∈ connections, c.isConnected = false) :=
  updateOverallState_cases connections

/-- Claim C4: a reconnect scheduled at attempt n (the counter reading
n - 1, below the cap of 10) delays min(1000 * 2 ^ (n - 1), 30000) ms, and
the open handler of a successful connect resets the counter to 0. -/
theorem claim_C4_backoff (m : BybitWebSocketManager) (n : Nat)
    (hdelay : m.reconnectDelay = 1000) (hmaxd : m.maxReconnectDelay = 30000)
    (hmax : m.maxReconnectAttempts = 10) (hn : m.reconnectAttempts + 1 = n)
    (hle : n ≤ 10) :
    (scheduleReconnect m).2 = some (min (1000 * 2 ^ (n - 1)) 30000)
    ∧ (bybitOnOpen (scheduleReconnect m).1).reconnectAttempts = 0 := by
  unfold scheduleReconnect bybitOnOpen
  have hlt : ¬ (m.maxReconnectAttempts ≤ m.reconnectAttempts) := by omega
  rw [if_neg hlt]
  have hatt : m.reconnectAttempts + 1 - 1 = n - 1 := by omega
  refine ⟨?_, rfl⟩
  simp only [hdelay, hmaxd, hatt]

/-- Concrete Bybit manager used to witness claim C4: counter at 4, about
to schedule attempt 5. -/
def bybitExample : BybitWebSocketManager :=
  { wsOpen := false
    state := ConnectionState.disconnected
    reconnectAttempts := 4
    maxReconnectAttempts := 10
    reconnectDelay := 1000
    maxReconnectDelay := 30000
    subscriptions := ["tickers.BTCUSDT"]
    isManualClose := false }

/-- Claim C4, witness at attempt 5 of the concrete manager. -/
theorem claim_C4_witness :
    bybitExample.reconnectDelay = 1000
    ∧ bybitExample.maxReconnectDelay = 30000
    ∧ bybitExample.maxReconnectAttempts = 10
    ∧ bybitExample.reconnectAttempts + 1 = 5
    ∧ 5 ≤ 10
    ∧ ((scheduleReconnect bybitExample).2 = some (min (1000 * 2 ^ (5 - 1)) 30000)
        ∧ (bybitOnOpen (scheduleReconnect bybitExample).1).reconnectAttempts = 0) :=
  ⟨rfl, rfl, rfl, rfl, by decide,
    claim_C4_backoff bybitExample 5 rfl rfl rfl rfl (by decide)⟩

/-- Claim C7: the computed CVD equals the sum of buyVolume minus
sellVolume over exactly the buckets the window range query returns for
its horizon (the full retention span bucketSizeMs * bucketCount ending
at now). -/
theorem claim_C7_cvd_matches_range (w : RollingWindow VolumeBucket)
    (now : Int) :
    calculateCVD w now =
      ((w.getRange (now - w.bucketSizeMs * (w.bucketCount : Int)) now).map
        (fun b => b.value.buyVolume - b.value.sellVolume)).sum := by
  unfold calculateCVD
  have h := foldl_add_eq_sum
    (fun b : Bucket VolumeBucket => b.value.buyVolume - b.value.sellVolume)
    (w.getRange (now - w.bucketSizeMs * (w.bucketCount : Int)) now) 0
  rw [h]
  ring

/-- Claim C9: the price acceleration always computes to zero, because the
velocity is recomputed twice over the identical trailing window and the
two results are differenced. -/
theorem claim_C9_acceleration_zero (w : RollingWindow PriceBucket) (now : Int) :
    calculatePriceAcceleration w now = 0 := by
  simp only [calculatePriceAcceleration]
  exact sub_self _

/-- Claim C10: enqueuing a leaderboard for broadcast stores only its first
20 entries, and the flush emits exactly that clipped list on the
leaderboard channel, so subscribers receive at most 20 entries per flush. -/
theorem claim_C10_broadcast_truncates (q : List (String × List LeaderboardEntry))
    (name : String) (entries : List LeaderboardEntry) :
    ("leaderboard:" ++ name, entries.take 20) ∈
        flushLeaderboardMessages (broadcastLeaderboard q name entries)
    ∧ (entries.take 20).length ≤ 20 := by
  constructor
  · exact List.mem_map.mpr ⟨(name, entries.take 20), queueSet_mem q name _, rfl⟩
  · rw [List.length_take]
    exact Nat.min_le_left _ _

/-- Volume window holding two retained buckets, both inside the last
bucket width relative to now = 500 (cutoff -500). -/
def volumeWindowExample : RollingWindow VolumeBucket :=
  { buckets :=
      [some { timestamp := 0
              value := { buyVolume := 1, sellVolume := 0, totalVolume := 1,
                         tradeCount := 1 } },
       some { timestamp := 0
              value := { buyVolume := 2, sellVolume := 0, totalVolume := 2,
                         tradeCount := 1 } }]
    bucketSizeMs := 1000
    bucketCount := 2
    currentIndex := 1
    lastBucketTime := 0 }

/-- Claim C1: against the claimed fold over all in-range retained buckets,
the source aggregate returns from inside its scan loop at the FIRST
in-range bucket, so with two in-range buckets it reports only the first
one merged into the identity instead of the full fold. -/
theorem claim_C1_aggregate_stops_at_first_bucket :
    RollingWindow.aggregate volumeWindowExample volumeDefault volumeMerge 500 1 =
      { buyVolume := 1, sellVolume := 0, totalVolume := 1, tradeCount := 1 }
    ∧ aggregateClaimed volumeWindowExample volumeDefault volumeMerge 500 1 =
      { buyVolume := 3, sellVolume := 0, totalVolume := 3, tradeCount := 2 }
    ∧ RollingWindow.aggregate volumeWindowExample volumeDefault volumeMerge 500 1 ≠
      aggregateClaimed volumeWindowExample volumeDefault volumeMerge 500 1 := by
  have h1 : RollingWindow.aggregate volumeWindowExample volumeDefault volumeMerge 500 1 =
      { buyVolume := 1, sellVolume := 0, totalVolume := 1, tradeCount := 1 } := by
    norm_num [RollingWindow.aggregate, aggregateLoop, volumeWindowExample,
      volumeDefault, volumeMerge]
  have h2 : aggregateClaimed volumeWindowExample volumeDefault volumeMerge 500 1 =
      { buyVolume := 3, sellVolume := 0, totalVolume := 3, tradeCount := 2 } := by
    norm_num [aggregateClaimed, volumeWindowExample, volumeDefault, volumeMerge,
      List.filterMap, List.filter, List.foldl]
  refine ⟨h1, h2, ?_⟩
  rw [h1, h2]
  intro hcontra
  have hbuy : (1 : ℚ) = 3 := congrArg VolumeBucket.buyVolume hcontra
  norm_num at hbuy

/-- Claim C5: re-partitioning k distinct subscribed streams at the cap of
50 yields exactly ceil(k / 50) physical connections, each holding at most
50 streams, with pairwise disjoint groups whose concatenation is the
original stream list. -/
theorem claim_C5_stream_split (streams : List String) (hnd : streams.Nodup) :
    (reorganizeConnections streams).length =
        (streams.length + STREAMS_PER_CONNECTION - 1) / STREAMS_PER_CONNECTION
    ∧ (∀ conn ∈ reorganizeConnections streams,
        conn.streams.length ≤ STREAMS_PER_CONNECTION)
    ∧ ((reorganizeConnections streams).map (fun conn => conn.streams)).flatten =
        streams
    ∧ (reorganizeConnections streams).Pairwise
        (fun a b => a.streams.Disjoint b.streams) := by
  have hc : 0 < STREAMS_PER_CONNECTION := by decide
  refine ⟨?_, ?_, ?_, ?_⟩
  · rw [reorganizeConnections, List.length_map, chunkBy_length _ hc]
  · intro conn hconn
    rw [reorganizeConnections] at hconn
    obtain ⟨ch, hch, rfl⟩ := List.mem_map.mp hconn
    exact chunkBy_mem_length _ _ ch hch
  · have hms : (reorganizeConnections streams).map (fun conn => conn.streams) =
        chunkBy STREAMS_PER_CONNECTION streams := by
      simp [reorganizeConnections, List.map_map, Function.comp_def]
    rw [hms]
    exact chunkBy_flatten _ hc streams
  · rw [reorganizeConnections, List.pairwise_map]
    exact chunkBy_pairwise_disjoint _ hc streams hnd

/-- Claim C5, witness: three distinct streams fit one connection. -/
theorem claim_C5_witness :
    (["btcusdt@ticker", "ethusdt@ticker", "solusdt@ticker"] : List String).Nodup
    ∧ (reorganizeConnections
          ["btcusdt@ticker", "ethusdt@ticker", "solusdt@ticker"]).length =
        ((["btcusdt@ticker", "ethusdt@ticker", "solusdt@ticker"] : List String).length +
            STREAMS_PER_CONNECTION - 1) / STREAMS_PER_CONNECTION :=
  ⟨by decide, (claim_C5_stream_split _ (by decide)).1⟩

theorem calculateArbitrage_cases (bestBid bestAsk : ℚ) (be ae : Exchange) :
    ((calculateArbitrage bestBid be bestAsk ae).opExists = true ↔
      (bestAsk < bestBid ∧ be ≠ ae))
    ∧ ((calculateArbitrage bestBid be bestAsk ae).opExists = true →
        (calculateArbitrage bestBid be bestAsk ae).profitPercent =
            (bestBid - bestAsk) / bestAsk * 100
        ∧ (calculateArbitrage bestBid be bestAsk ae).buyExchange = ae
        ∧ (calculateArbitrage bestBid be bestAsk ae).sellExchange = be)
    ∧ (calculateArbitrage bestBid be bestAsk ae).buyPrice = bestAsk
    ∧ (calculateArbitrage bestBid be bestAsk ae).sellPrice = bestBid := by
  unfold calculateArbitrage
  split_ifs with h
  · simp [h]
  · simp [h]

/-- Claim C6: for a cross-venue group, an arbitrage opportunity exists
exactly when the best bid exceeds the best ask with differing venues;
when it exists, the profit percent is (bid - ask) / ask * 100, buying at
the best-ask venue and selling at the best-bid venue; in all cases the
reported buy price is the best ask and the sell price the best bid. -/
theorem claim_C6_arbitrage (symbol : String) (markets : List UnifiedMarket)
    (now : Int) (hlen : 2 ≤ markets.length) :
    ((aggregateSymbolMarkets symbol markets now).arbitrageOpportunity.opExists = true ↔
      ((aggregateSymbolMarkets symbol markets now).bestAsk <
          (aggregateSymbolMarkets symbol markets now).bestBid
        ∧ (aggregateSymbolMarkets symbol markets now).bestBidExchange ≠
            (aggregateSymbolMarkets symbol markets now).bestAskExchange))
    ∧ ((aggregateSymbolMarkets symbol markets now).arbitrageOpportunity.opExists = true →
        (aggregateSymbolMarkets symbol markets now).arbitrageOpportunity.profitPercent =
            ((aggregateSymbolMarkets symbol markets now).bestBid -
                (aggregateSymbolMarkets symbol markets now).bestAsk) /
              (aggregateSymbolMarkets symbol markets now).bestAsk * 100
        ∧ (aggregateSymbolMarkets symbol markets now).arbitrageOpportunity.buyExchange =
            (aggregateSymbolMarkets symbol markets now).bestAskExchange
        ∧ (aggregateSymbolMarkets symbol markets now).arbitrageOpportunity.sellExchange =
            (aggregateSymbolMarkets symbol markets now).bestBidExchange)
    ∧ (aggregateSymbolMarkets symbol markets now).arbitrageOpportunity.buyPrice =
        (aggregateSymbolMarkets symbol markets now).bestAsk
    ∧ (aggregateSymbolMarkets symbol markets now).arbitrageOpportunity.sellPrice =
        (aggregateSymbolMarkets symbol markets now).bestBid := by
  have key : (aggregateSymbolMarkets symbol markets now).arbitrageOpportunity =
      calculateArbitrage (aggregateSymbolMarkets symbol markets now).bestBid
        (aggregateSymbolMarkets symbol markets now).bestBidExchange
        (aggregateSymbolMarkets symbol markets now).bestAsk
        (aggregateSymbolMarkets symbol markets now).bestAskExchange := rfl
  rw [key]
  exact calculateArbitrage_cases _ _ _ _

/-- Binance BTC market used in the cross-venue witness: best bid 101,
best ask 102. -/
def marketBinanceBTC : UnifiedMarket :=
  { id := "binance:BTC-USDT-PERP"
    exchange := Exchange.binance
    symbol := "BTC-USDT-PERP"
    lastPrice := 101
    bestBid := 101
    bestAsk := 102
    spreadPercent := 0
    volume24hUsd := 1000
    openInterestUsd := none
    fundingRateAnnualized := none
    priceChangePercent24h := 0 }

/-- Bybit BTC market used in the cross-venue witness: best bid 99, best
ask 100, so the group has best bid 101 at binance above best ask 100 at
bybit. -/
def marketBybitBTC : UnifiedMarket :=
  { id := "bybit:BTC-USDT-PERP"
    exchange := Exchange.bybit
    symbol := "BTC-USDT-PERP"
    lastPrice := 100
    bestBid := 99
    bestAsk := 100
    spreadPercent := 0
    volume24hUsd := 500
    openInterestUsd := none
    fundingRateAnnualized := none
    priceChangePercent24h := 0 }

/-- Claim C6, witness: the two-venue BTC group of the spec example. -/
theorem claim_C6_witness :
    2 ≤ ([marketBinanceBTC, marketBybitBTC] : List UnifiedMarket).length
    ∧ ((aggregateSymbolMarkets "BTC-USDT-PERP" [marketBinanceBTC, marketBybitBTC]
            0).arbitrageOpportunity.opExists = true ↔
        ((aggregateSymbolMarkets "BTC-USDT-PERP" [marketBinanceBTC, marketBybitBTC]
              0).bestAsk <
            (aggregateSymbolMarkets "BTC-USDT-PERP" [marketBinanceBTC, marketBybitBTC]
              0).bestBid
          ∧ (aggregateSymbolMarkets "BTC-USDT-PERP" [marketBinanceBTC, marketBybitBTC]
              0).bestBidExchange ≠
            (aggregateSymbolMarkets "BTC-USDT-PERP" [marketBinanceBTC, marketBybitBTC]
              0).bestAskExchange)) :=
  ⟨by decide,
    (claim_C6_arbitrage "BTC-USDT-PERP" [marketBinanceBTC, marketBybitBTC] 0
      (by decide)).1⟩

/-- Claim C8: the rebuilt gainers leaderboard is ordered descending by
its price-change-percent values, the ranks read off in order are exactly
1..N, and a store read with a limit returns at most min(limit, N)
entries. -/
theorem claim_C8_gainers (markets : List UnifiedMarket) (limit : Nat) :
    List.Sorted (fun a b : ℚ => b ≤ a)
      ((updateGainers1h markets).map (fun e => e.value))
    ∧ (updateGainers1h markets).map (fun e => e.rank) =
        List.range' 1 (updateGainers1h markets).length
    ∧ (leaderboardGet (updateGainers1h markets) limit).length ≤
        min limit (updateGainers1h markets).length := by
  refine ⟨?_, ?_, ?_⟩
  · unfold updateGainers1h
    exact createEntries_desc_sorted _ _
  · unfold updateGainers1h createEntries
    rw [assignRanks_map_rank, assignRanks_length]
  · unfold leaderboardGet
    rw [List.length_take]
